import Mathlib

/-!
Verification of the ALPACA-nextflow segment-distribution scripts.

This file gives a shallow embedding of the coordination scripts
(`segment_worker.py`, `dispatcher.py`, `validate_results.py`) and proves,
or refutes, the specified properties of the claim-and-lifecycle protocol.

Conventions of the embedding:
* Directories of the protocol (pool, per-worker queue, per-worker
  in-progress area, done, failed, outputs) are abstract tags; a directory
  listing is a `List String` of basenames.
* Filesystem side effects are recorded in an explicit trace (`Eff`).
* Operations that the scripts treat as fallible are driven by explicit
  oracles (fault oracles for OS errors, outcome oracles for the external
  ALPACA invocation); where a claim is about nominal behaviour the
  operations are modelled as succeeding.
* Clock readings are rationals; one loop iteration observes one reading.
-/

namespace Alpaca

/-- The directories of the protocol, as abstract tags.  `active` is the
worker's private `in_progress` area, `queue` its private queue fed by the
dispatcher, `outputs` the shared outputs area (logs, heartbeats, sentinel),
`cohort` the read-only input cohort directory. -/
inductive Dir
  | pool
  | queue
  | active
  | done
  | failed
  | outputs
  | cohort
  deriving DecidableEq, Repr

/-- A filesystem side effect performed by one of the scripts.  `listDir` is
a read-only directory listing; `mkdirIn` is `os.makedirs` below a root;
`invoke` is one launch of the external ALPACA computation (which writes
only under `outputs`); `sleepFor` is a `time.sleep`. -/
inductive Eff
  | listDir (d : Dir)
  | moveFile (src dst : Dir) (name : String)
  | removeFile (d : Dir) (name : String)
  | writeFile (d : Dir) (name : String)
  | mkdirIn (d : Dir)
  | invoke (tumour : String)
  | sleepFor (q : ℚ)
  deriving DecidableEq, Repr

/-- Lexicographic comparison of character lists by code point, Python's
string ordering. -/
def lexLe : List Char → List Char → Bool
  | [], _ => true
  | _ :: _, [] => false
  | a :: as, b :: bs => if a == b then lexLe as bs else decide (a.toNat < b.toNat)

/-- Python's `s1 <= s2` on strings. -/
def strLe (a b : String) : Bool := lexLe a.data b.data

/-- Insert a string into a sorted list (helper for `sortStrings`). -/
def insertSorted (s : String) : List String → List String
  | [] => [s]
  | x :: xs => if strLe s x then s :: x :: xs else x :: insertSorted s xs

/-- Lexicographic sort of a file listing, modelling Python's `sorted`. -/
def sortStrings (l : List String) : List String :=
  l.foldr insertSorted []

/-- Does the character list `s` start with `pat`?  (Executable helper for
the Python string methods used by the scripts; Lean's own `String`
operations are not kernel-computable.) -/
def startsWithC (pat s : List Char) : Bool :=
  match pat, s with
  | [], _ => true
  | _ :: _, [] => false
  | p :: ps, c :: cs => p == c && startsWithC ps cs

/-- Fuel-driven scan for `replaceAllC`: replace every non-overlapping
occurrence of the non-empty pattern `p :: ps` by `rep`, scanning left to
right.  The fuel is at least the length of the scanned list, so it never
runs out; it only makes the recursion structural (and hence
kernel-computable). -/
def replaceFuel (p : Char) (ps rep : List Char) : ℕ → List Char → List Char
  | 0, s => s
  | _ + 1, [] => []
  | fuel + 1, c :: cs =>
    if startsWithC (p :: ps) (c :: cs) then
      rep ++ replaceFuel p ps rep fuel (cs.drop ps.length)
    else
      c :: replaceFuel p ps rep fuel cs

/-- Python's `str.replace` for a non-empty pattern `p :: ps`. -/
def replaceAllC (p : Char) (ps rep s : List Char) : List Char :=
  replaceFuel p ps rep s.length s

/-- Python's `s.replace(pat, rep)` on `String`s (for the non-empty literal
patterns the scripts use; an empty pattern is returned unchanged). -/
def pyReplace (s pat rep : String) : String :=
  match pat.data with
  | [] => s
  | p :: ps => String.mk (replaceAllC p ps rep.data s.data)

/-- Python's `s.endswith(suffix)`. -/
def pyEndsWith (s suffix : String) : Bool :=
  startsWithC suffix.data.reverse s.data.reverse

/-- The characters before the first occurrence of `c` (the whole list when
`c` is absent): Python's `s.split(c, 1)[0]`. -/
def takeUntilChar (c : Char) : List Char → List Char
  | [] => []
  | x :: xs => if x == c then [] else x :: takeUntilChar c xs

/-- The group key ("tumour") derived from a basename, exactly as in
`segment_worker.py` lines 503 and 544:
`bn.replace("ALPACA_input_table_", "").split("_", 1)[0]`. -/
def tumourKey (bn : String) : String :=
  String.mk (takeUntilChar '_' (pyReplace bn "ALPACA_input_table_" "").data)

/-- The done-basenames lookup list used by `claim_segment`: the cache when
supplied (`done_basenames is not None`), otherwise the set of basenames
found by walking the done tree. -/
def doneLookup (cache : Option (List String)) (doneWalk : List String) : List String :=
  cache.getD doneWalk

/-- Result of one `claim_segment` call: the pool listing it leaves behind,
the claimed basename (if any), the entries it examined in order, and the
trace of filesystem effects it performed. -/
structure ClaimOut where
  pool : List String
  claimed : Option String
  considered : List String
  trace : List Eff
  deriving DecidableEq, Repr

/-- `claim_segment` from `segment_worker.py` (lines 20-147), under nominal
filesystem semantics (every `os.remove` / `os.rename` succeeds on first
attempt).  It scans the pool listing in order; skips non-`.csv` entries;
deletes (instead of claiming) any entry whose basename is in the done
lookup; and claims the first remaining entry by an atomic rename into the
worker's in-progress directory, returning at once. -/
def claim_segment (lookup : List String) : List String → ClaimOut
  | [] => ⟨[], none, [], []⟩
  | f :: rest =>
    if pyEndsWith f ".csv" then
      if f ∈ lookup then
        let r := claim_segment lookup rest
        ⟨r.pool, r.claimed, f :: r.considered, Eff.removeFile Dir.pool f :: r.trace⟩
      else
        ⟨rest, some f, [f], [Eff.moveFile Dir.pool Dir.active f]⟩
    else
      let r := claim_segment lookup rest
      ⟨f :: r.pool, r.claimed, f :: r.considered, r.trace⟩

/-- Does an effect create, modify or remove a file under the done tree?
(Read-only listings do not.) -/
def touchesDone : Eff → Bool
  | Eff.moveFile src dst _ => src == Dir.done || dst == Dir.done
  | Eff.removeFile d _ => d == Dir.done
  | Eff.writeFile d _ => d == Dir.done
  | Eff.mkdirIn d => d == Dir.done
  | _ => false

lemma claim_segment_pool_subset (lookup : List String) :
    ∀ l : List String, (claim_segment lookup l).pool ⊆ l := by
  intro l
  induction l with
  | nil => simp [claim_segment]
  | cons f rest ih =>
    by_cases hcsv : pyEndsWith f ".csv"
    · by_cases hdone : f ∈ lookup
      · simp only [claim_segment, hcsv, hdone, if_true]
        exact fun x hx => List.mem_cons_of_mem _ (ih hx)
      · simp only [claim_segment, hcsv, hdone, if_true, if_false]
        exact fun x hx => List.mem_cons_of_mem _ hx
    · simp only [claim_segment, hcsv, if_false]
      intro x hx
      rcases List.mem_cons.mp hx with h | h
      · exact h ▸ List.mem_cons_self _ _
      · exact List.mem_cons_of_mem _ (ih h)

lemma claim_segment_claimed_not_done (lookup : List String) :
    ∀ l g, (claim_segment lookup l).claimed = some g → g ∉ lookup := by
  intro l
  induction l with
  | nil => intro g h; simp [claim_segment] at h
  | cons f rest ih =>
    intro g h
    by_cases hcsv : pyEndsWith f ".csv"
    · by_cases hdone : f ∈ lookup
      · simp only [claim_segment, hcsv, hdone, if_true] at h
        exact ih g h
      · simp only [claim_segment, hcsv, hdone, if_true, if_false] at h
        cases h
        exact hdone
    · simp only [claim_segment, hcsv, if_false] at h
      exact ih g h

lemma claim_segment_trace_clean (lookup : List String) :
    ∀ l : List String, ((claim_segment lookup l).trace.all fun e => !touchesDone e) = true := by
  intro l
  induction l with
  | nil => simp [claim_segment]
  | cons f rest ih =>
    by_cases hcsv : pyEndsWith f ".csv"
    · by_cases hdone : f ∈ lookup
      · have hhd : touchesDone (Eff.removeFile Dir.pool f) = false := rfl
        simp only [claim_segment, hcsv, hdone, if_true, List.all_cons, hhd,
          Bool.not_false, Bool.true_and]
        exact ih
      · simp [claim_segment, hcsv, hdone, touchesDone]
    · simp only [claim_segment, hcsv, if_false]
      exact ih

lemma claim_segment_removes (lookup : List String) :
    ∀ l : List String, l.Nodup → ∀ f ∈ (claim_segment lookup l).considered,
      pyEndsWith f ".csv" = true → f ∈ lookup →
      f ∉ (claim_segment lookup l).pool ∧ (claim_segment lookup l).claimed ≠ some f ∧
        Eff.removeFile Dir.pool f ∈ (claim_segment lookup l).trace := by
  intro l
  induction l with
  | nil => intro _ f hf; simp [claim_segment] at hf
  | cons g rest ih =>
    intro hnd f hf hcsv hdone
    have hnd' : rest.Nodup := (List.nodup_cons.mp hnd).2
    have hgrest : g ∉ rest := (List.nodup_cons.mp hnd).1
    by_cases hg : pyEndsWith g ".csv"
    · by_cases hgd : g ∈ lookup
      · simp only [claim_segment, hg, hgd, if_true] at hf ⊢
        rcases List.mem_cons.mp hf with hfg | hf'
        · subst hfg
          refine ⟨fun hc => hgrest (claim_segment_pool_subset lookup rest hc), ?_, ?_⟩
          · intro hc
            exact (claim_segment_claimed_not_done lookup rest f hc) hdone
          · exact List.mem_cons_self _ _
        · obtain ⟨h1, h2, h3⟩ := ih hnd' f hf' hcsv hdone
          exact ⟨h1, h2, List.mem_cons_of_mem _ h3⟩
      · simp only [claim_segment, hg, hgd, if_true, if_false] at hf ⊢
        rcases List.mem_cons.mp hf with hfg | hf'
        · subst hfg; exact absurd hdone hgd
        · simp at hf'
    · simp only [claim_segment, hg, if_false] at hf ⊢
      rcases List.mem_cons.mp hf with hfg | hf'
      · subst hfg
        exact absurd hcsv hg
      · obtain ⟨h1, h2, h3⟩ := ih hnd' f hf' hcsv hdone
        refine ⟨fun hc => ?_, h2, h3⟩
        rcases List.mem_cons.mp hc with hfg2 | hc'
        · exact hg (hfg2 ▸ hcsv)
        · exact h1 hc'

/-- Concrete pool listing for the C5 witness. -/
def c5Pool : List String :=
  ["notes.txt", "ALPACA_input_table_T1_1.csv", "ALPACA_input_table_T1_2.csv"]

/-- Concrete done-tree walk for the C5 witness. -/
def c5Done : List String := ["ALPACA_input_table_T1_1.csv"]

/-- C5: any candidate considered by `claim_segment` whose basename is in the
done lookup (the cache when supplied, else the walk of the done tree) is
removed from the pool instead of claimed, is never returned as claimed
work, and the whole call performs no effect that creates, modifies or
removes a file under the done tree. -/
theorem claim_segment_skips_already_done (cache : Option (List String))
    (doneWalk pool : List String) (hnd : pool.Nodup) (f : String)
    (hf : f ∈ (claim_segment (doneLookup cache doneWalk) pool).considered)
    (hcsv : pyEndsWith f ".csv" = true)
    (hdone : f ∈ doneLookup cache doneWalk) :
    f ∉ (claim_segment (doneLookup cache doneWalk) pool).pool ∧
      (claim_segment (doneLookup cache doneWalk) pool).claimed ≠ some f ∧
      Eff.removeFile Dir.pool f ∈ (claim_segment (doneLookup cache doneWalk) pool).trace ∧
      ((claim_segment (doneLookup cache doneWalk) pool).trace.all fun e => !touchesDone e) = true := by
  obtain ⟨h1, h2, h3⟩ :=
    claim_segment_removes (doneLookup cache doneWalk) pool hnd f hf hcsv hdone
  exact ⟨h1, h2, h3, claim_segment_trace_clean _ pool⟩

/-- Witness for C5 at a concrete pool and done tree (no cache supplied, so
the walk of the done tree is consulted). -/
theorem claim_segment_skips_already_done_witness :
    "ALPACA_input_table_T1_1.csv" ∉ (claim_segment (doneLookup none c5Done) c5Pool).pool ∧
      (claim_segment (doneLookup none c5Done) c5Pool).claimed ≠
        some "ALPACA_input_table_T1_1.csv" ∧
      Eff.removeFile Dir.pool "ALPACA_input_table_T1_1.csv" ∈
        (claim_segment (doneLookup none c5Done) c5Pool).trace ∧
      ((claim_segment (doneLookup none c5Done) c5Pool).trace.all fun e => !touchesDone e) = true :=
  claim_segment_skips_already_done none c5Done c5Pool (by decide)
    "ALPACA_input_table_T1_1.csv" (by decide) (by decide) (by decide)

/-! ## The per-group retry loop (`segment_worker.main`, lines 508-538) -/

/-- Observable trace of the retry loop for one group: the number of times
the external ALPACA computation was launched, the sleeps (in order)
performed after failed attempts, and the recorded group outcome. -/
structure RetryTrace where
  invocations : ℕ
  sleeps : List ℚ
  success : Bool
  deriving DecidableEq, Repr

/-- One group's loop `while retries <= args.max_retries and not success`
from `segment_worker.main` (lines 509-538), driven by the outcome oracle
`invOk n` for invocation number `n` (counted from 0).  An invocation that
raises an exception is recorded identically to one returning a non-zero
code: `success` stays false (the code catches the exception and falls
through to the retry).  After every failed attempt the code does
`retries += 1; time.sleep(args.backoff * retries)`.  `fuel` stands for
`maxRetries + 1 - retries`, so the loop guard `retries <= maxRetries` is
`fuel > 0`. -/
def retryLoopFuel (invOk : ℕ → Bool) (backoff : ℚ) : ℕ → ℕ → RetryTrace
  | _, 0 => ⟨0, [], false⟩
  | retries, fuel + 1 =>
    if invOk retries then ⟨1, [], true⟩
    else
      let r := retryLoopFuel invOk backoff (retries + 1) fuel
      ⟨r.invocations + 1, backoff * ((retries + 1 : ℕ) : ℚ) :: r.sleeps, r.success⟩

/-- The full retry loop for one group, started at `retries = 0`. -/
def run_group (invOk : ℕ → Bool) (maxRetries : ℕ) (backoff : ℚ) : RetryTrace :=
  retryLoopFuel invOk backoff 0 (maxRetries + 1)

lemma retryLoopFuel_all_fail (invOk : ℕ → Bool) (backoff : ℚ)
    (hfail : ∀ n, invOk n = false) :
    ∀ fuel retries, retryLoopFuel invOk backoff retries fuel =
      ⟨fuel, (List.range fuel).map (fun k => backoff * ((retries + k + 1 : ℕ) : ℚ)), false⟩ := by
  intro fuel
  induction fuel with
  | zero => intro retries; simp [retryLoopFuel]
  | succ n ih =>
    intro retries
    simp only [retryLoopFuel, hfail retries, if_false, ih (retries + 1)]
    refine congrArg (RetryTrace.mk (n + 1) · false) ?_
    rw [List.range_succ_eq_map, List.map_cons, List.map_map]
    refine congrArg₂ List.cons (by norm_num) ?_
    refine List.map_congr_left fun k _ => ?_
    have harith : retries + 1 + k + 1 = retries + (k + 1) + 1 := by omega
    rw [harith]
    rfl

/-- C2: a group whose external computation fails on every attempt is
invoked exactly `maxRetries + 1` times; the group's outcome is recorded as
failed (`success = false`, which the routing phase sends to the failed
directory rather than aborting the worker); and the sleep after the k-th
failed attempt (k counted from 1) is `backoff * k`, so the sleep between
failed attempt k and attempt k+1 is `backoff * k`. -/
theorem run_group_retry_bound (invOk : ℕ → Bool) (maxRetries : ℕ) (backoff : ℚ)
    (hfail : ∀ n, invOk n = false) :
    (run_group invOk maxRetries backoff).invocations = maxRetries + 1 ∧
      (run_group invOk maxRetries backoff).success = false ∧
      (run_group invOk maxRetries backoff).sleeps =
        (List.range (maxRetries + 1)).map (fun k => backoff * ((k + 1 : ℕ) : ℚ)) := by
  rw [run_group, retryLoopFuel_all_fail invOk backoff hfail (maxRetries + 1) 0]
  refine ⟨rfl, rfl, ?_⟩
  exact List.map_congr_left fun k _ => by norm_num

/-- Witness for C2: an always-failing stub with `maxRetries = 2` and
`backoff = 2` is invoked exactly 3 times and the group outcome is failed. -/
theorem run_group_retry_bound_witness :
    (run_group (fun _ => false) 2 2).invocations = 2 + 1 ∧
      (run_group (fun _ => false) 2 2).success = false ∧
      (run_group (fun _ => false) 2 2).sleeps =
        (List.range (2 + 1)).map (fun k => (2 : ℚ) * ((k + 1 : ℕ) : ℚ)) :=
  run_group_retry_bound (fun _ => false) 2 2 (fun _ => rfl)

/-! ## The empty-poll exit logic (`segment_worker.main`, lines 461-493) -/

/-- The decision taken by the worker on a poll in which no file was
claimed: the updated `last_work_ts`, whether the idle timeout was deemed
reached, and whether the loop breaks out (exits). -/
structure PollDecision where
  lastWorkTs : ℚ
  timeoutReached : Bool
  exitNow : Bool
  deriving DecidableEq, Repr

/-- The empty-poll branch `if not claimed_paths:` of `segment_worker.main`
(lines 461-493), verbatim: if `last_work_ts` is unset it is set to now;
then, if the cumulative `worker_log["claims"]` list is non-empty, it is
reset to now again; `idle_seconds` is now minus `last_work_ts`; the worker
breaks out iff `idle_seconds > args.max_idle_seconds` or the
`dispatcher.done` sentinel file exists. -/
def emptyPollStep (lastWorkTs : Option ℚ) (claimsCount : ℕ) (now maxIdleSeconds : ℚ)
    (dispatcherDone : Bool) : PollDecision :=
  let last0 := lastWorkTs.getD now
  let last1 := if 0 < claimsCount then now else last0
  let idleSeconds := now - last1
  let timeoutReached := decide (maxIdleSeconds < idleSeconds)
  ⟨last1, timeoutReached, timeoutReached || dispatcherDone⟩

/-- C3 (refuting the idle-timeout exit): a worker that has ever claimed at
least one file (`claimsCount > 0`) never exits from an empty poll while the
dispatcher sentinel is absent, no matter how large `now` is — the code
resets `last_work_ts` to `now` on every empty poll, so `idle_seconds` is 0
and the `--max-idle-seconds` timeout can never fire.  This contradicts the
claim (and the flag's own help text) that such a worker exits once it has
been idle longer than the timeout. -/
theorem emptyPollStep_never_times_out (lastWorkTs : Option ℚ) (claimsCount : ℕ)
    (now maxIdleSeconds : ℚ) (hclaims : 0 < claimsCount) (hmax : 0 ≤ maxIdleSeconds) :
    (emptyPollStep lastWorkTs claimsCount now maxIdleSeconds false).exitNow = false ∧
      (emptyPollStep lastWorkTs claimsCount now maxIdleSeconds false).timeoutReached = false := by
  have hts : (if 0 < claimsCount then now else lastWorkTs.getD now) = now := if_pos hclaims
  have hidle : ¬ maxIdleSeconds < now - now := by
    rw [sub_self]
    exact not_lt.mpr hmax
  constructor <;>
    simp [emptyPollStep, hts, hidle, hmax]

/-- Witness for C3: with one past claim, `last_work_ts = 0`,
`max_idle_seconds = 600` and the clock at 1000000 seconds (far beyond the
timeout), the worker still does not exit. -/
theorem emptyPollStep_never_times_out_witness :
    (emptyPollStep (some 0) 1 1000000 600 false).exitNow = false ∧
      (emptyPollStep (some 0) 1 1000000 600 false).timeoutReached = false :=
  emptyPollStep_never_times_out (some 0) 1 1000000 600 (by decide) (by norm_num)

/-! ## One poll cycle of the worker main loop (`segment_worker.main`, lines 343-605) -/

/-- The directory state a single worker's poll cycle can observe and
mutate: its own queue and in-progress listings, the done and failed trees,
and the shared pool listing (which the main loop never touches), plus the
idle bookkeeping carried in `worker_log`. -/
structure WState where
  queue : List String
  active : List String
  doneTree : List String
  failedTree : List String
  pool : List String
  lastWorkTs : Option ℚ
  claimsCount : ℕ
  deriving DecidableEq, Repr

/-- Labels of the fallible operations of one poll cycle (used by the fault
oracle).  Every label corresponds to one operation region of
`segment_worker.main`. -/
inductive WOp
  | heartbeat
  | cacheRefresh
  | listQueue
  | claimMove (bn : String)
  | logFlushClaims
  | writeStuckDiag
  | routeMakedirs (bn : String)
  | routeMove (bn : String)
  | logFlushBatch
  deriving DecidableEq, BEq, Repr

/-- Output of the claim phase (queue listing plus `move_queue_file` calls,
lines 366-459). -/
structure ClaimPhaseOut where
  st : WState
  trace : List Eff
  claimedNow : List String
  deriving DecidableEq, Repr

/-- The loop `for bn in to_claim: moved = move_queue_file(bn)` of
`segment_worker.main` (lines 432-443).  `move_queue_file` (lines 385-426)
catches `FileNotFoundError` and `OSError` internally and returns `None`
after its retries, so a faulted move simply contributes no claim; a
successful move renames the file from the worker's queue into its
in-progress directory and appends to `worker_log["claims"]`. -/
def moveQueueFiles (fault : WOp → Bool) : List String → WState → ClaimPhaseOut
  | [], st => ⟨st, [], []⟩
  | bn :: rest, st =>
    if fault (WOp.claimMove bn) then
      moveQueueFiles fault rest st
    else
      let st1 := { st with
        queue := st.queue.erase bn
        active := bn :: st.active
        claimsCount := st.claimsCount + 1 }
      let r := moveQueueFiles fault rest st1
      ⟨r.st, Eff.moveFile Dir.queue Dir.active bn :: r.trace, bn :: r.claimedNow⟩

/-- Lines 343-459 of `segment_worker.main`: heartbeat write (guarded by
`try/except: pass`), periodic done-cache walk (guarded), listing of the
worker's own queue (guarded; a fault yields an empty listing), claiming of
up to `segments_per_claim` `.csv` files from the queue, and the guarded
log flush.  The shared pool directory is nowhere consulted. -/
def claimPhase (fault : WOp → Bool) (segmentsPerClaim : ℕ) (st : WState) : ClaimPhaseOut :=
  let hb : List Eff := if fault WOp.heartbeat then [] else [Eff.writeFile Dir.outputs "heartbeat"]
  let cache : List Eff := if fault WOp.cacheRefresh then [] else [Eff.listDir Dir.done]
  let qEntries := if fault WOp.listQueue then [] else sortStrings st.queue
  let toClaim := (qEntries.filter fun f => pyEndsWith f ".csv").take segmentsPerClaim
  let mv := moveQueueFiles fault toClaim st
  let lf : List Eff := if fault WOp.logFlushClaims then [] else [Eff.writeFile Dir.outputs "workerlog"]
  ⟨mv.st, hb ++ cache ++ Eff.listDir Dir.queue :: mv.trace ++ lf, mv.claimedNow⟩

/-- `groups.setdefault(tumour, []).append(p)` over an association list
(insertion-ordered, like a Python dict). -/
def addToGroups (bn : String) : List (String × List String) → List (String × List String)
  | [] => [(tumourKey bn, [bn])]
  | (k, xs) :: rest =>
    if k = tumourKey bn then (k, xs ++ [bn]) :: rest
    else (k, xs) :: addToGroups bn rest

/-- The grouping loop of `segment_worker.main` (lines 500-504): partition
the claimed basenames by tumour key. -/
def groupByKey (l : List String) : List (String × List String) :=
  l.foldl (fun g bn => addToGroups bn g) []

/-- Python's `dict.get(k, False)` over an association list. -/
def lookupD (l : List (String × Bool)) (k : String) : Bool :=
  match l with
  | [] => false
  | (k0, v) :: rest => if k0 = k then v else lookupD rest k

/-- `group_results` of `segment_worker.main` (lines 507-538): one retry
loop per group, keyed by tumour. -/
def groupResultsOf (invOk : String → ℕ → Bool) (maxRetries : ℕ) (backoff : ℚ)
    (groups : List (String × List String)) : List (String × Bool) :=
  groups.map fun g => (g.1, (run_group (invOk g.1) maxRetries backoff).success)

/-- The effect trace of one group's retry loop: its ALPACA launches and
backoff sleeps. -/
def groupTrace (k : String) (rt : RetryTrace) : List Eff :=
  List.replicate rt.invocations (Eff.invoke k) ++ rt.sleeps.map Eff.sleepFor

/-- Output of the routing phase (lines 540-589). -/
structure RouteOut where
  st : WState
  trace : List Eff
  routed : List (String × Dir)
  crashed : Bool
  deriving DecidableEq, Repr

/-- The routing loop `for p in claimed_paths:` of `segment_worker.main`
(lines 541-589).  The destination is the done directory iff
`group_results.get(tumour, False)` is true, else the failed directory.
`os.makedirs(os.path.dirname(dest), exist_ok=True)` at line 552 is not
inside any `try`: a fault there propagates out of `main` and kills the
worker (modelled by `crashed := true`, abandoning the rest of the cycle).
A fault in `shutil.move` is caught (`FileNotFoundError` / `OSError`),
logged, and the unit stays in the in-progress area. -/
def routeAll (fault : WOp → Bool) (gr : List (String × Bool)) :
    List String → WState → RouteOut
  | [], st => ⟨st, [], [], false⟩
  | bn :: rest, st =>
    let dest := if lookupD gr (tumourKey bn) then Dir.done else Dir.failed
    if fault (WOp.routeMakedirs bn) then
      ⟨st, [], [], true⟩
    else if fault (WOp.routeMove bn) then
      let r := routeAll fault gr rest st
      ⟨r.st, Eff.mkdirIn dest :: r.trace, (bn, dest) :: r.routed, r.crashed⟩
    else
      let st1 := { st with
        active := st.active.erase bn
        doneTree := if dest = Dir.done then bn :: st.doneTree else st.doneTree
        failedTree := if dest = Dir.failed then bn :: st.failedTree else st.failedTree }
      let r := routeAll fault gr rest st1
      ⟨r.st, Eff.mkdirIn dest :: Eff.moveFile Dir.active dest bn :: r.trace,
        (bn, dest) :: r.routed, r.crashed⟩

/-- How one poll cycle of the worker main loop ends. -/
inductive CycleExit
  | continued
  | sleptIdle
  | exitedTimeout
  | exitedSentinel
  | crashed
  deriving DecidableEq, Repr

/-- Observable outcome of one poll cycle. -/
structure CycleOut where
  st : WState
  trace : List Eff
  claimedNow : List String
  routed : List (String × Dir)
  exit : CycleExit
  deriving DecidableEq, Repr

/-- The `if not claimed_paths:` branch (lines 461-493): idle bookkeeping,
possible exit (with a guarded stuck-diagnostics write), else a
poll-interval sleep. -/
def emptyBranch (fault : WOp → Bool) (pollInterval maxIdleSeconds now : ℚ)
    (dispatcherDone : Bool) (cp : ClaimPhaseOut) : CycleOut :=
  let pd := emptyPollStep cp.st.lastWorkTs cp.st.claimsCount now maxIdleSeconds dispatcherDone
  let st1 := { cp.st with lastWorkTs := some pd.lastWorkTs }
  if pd.exitNow then
    let diag : List Eff := if fault WOp.writeStuckDiag then [] else [Eff.writeFile Dir.outputs "stuckdiag"]
    ⟨st1, cp.trace ++ diag, [], [],
      if pd.timeoutReached then CycleExit.exitedTimeout else CycleExit.exitedSentinel⟩
  else
    ⟨st1, cp.trace ++ [Eff.sleepFor pollInterval], [], [], CycleExit.sleptIdle⟩

/-- The batch branch (lines 495-605): reset the idle marker, group the
claimed files by tumour, run the per-group retry loops, route every
claimed unit to done or failed by its group's outcome, and flush the log
(guarded). -/
def batchBranch (fault : WOp → Bool) (invOk : String → ℕ → Bool)
    (maxRetries : ℕ) (backoff now : ℚ) (cp : ClaimPhaseOut) : CycleOut :=
  let st1 := { cp.st with lastWorkTs := some now }
  let groups := groupByKey cp.claimedNow
  let gr := groupResultsOf invOk maxRetries backoff groups
  let invTrace := (groups.map fun g => groupTrace g.1 (run_group (invOk g.1) maxRetries backoff)).flatten
  let ro := routeAll fault gr cp.claimedNow st1
  let lf : List Eff :=
    if fault WOp.logFlushBatch || ro.crashed then [] else [Eff.writeFile Dir.outputs "workerlog"]
  ⟨ro.st, cp.trace ++ invTrace ++ ro.trace ++ lf, cp.claimedNow, ro.routed,
    if ro.crashed then CycleExit.crashed else CycleExit.continued⟩

/-- One full iteration of the worker's `while True:` loop
(`segment_worker.main`, lines 343-605). -/
def workerPollCycle (fault : WOp → Bool) (invOk : String → ℕ → Bool)
    (segmentsPerClaim maxRetries : ℕ) (backoff pollInterval maxIdleSeconds : ℚ)
    (now : ℚ) (dispatcherDone : Bool) (st : WState) : CycleOut :=
  let cp := claimPhase fault segmentsPerClaim st
  if cp.claimedNow.isEmpty then
    emptyBranch fault pollInterval maxIdleSeconds now dispatcherDone cp
  else
    batchBranch fault invOk maxRetries backoff now cp

/-- The startup path checks of `segment_worker.main` (lines 297-326): a
read-only existence/`os.listdir` probe of each configured directory —
this is the only time the worker looks at the shared pool — followed by
the initial log flush. -/
def startupChecks : List Eff :=
  [Eff.listDir Dir.pool, Eff.listDir Dir.active, Eff.listDir Dir.outputs,
   Eff.listDir Dir.done, Eff.listDir Dir.failed, Eff.listDir Dir.cohort,
   Eff.writeFile Dir.outputs "workerlog"]

/-- Does an effect avoid creating, removing, moving, writing or even
listing anything in the shared pool directory? -/
def poolSafe : Eff → Bool
  | Eff.listDir d => !(d == Dir.pool)
  | Eff.moveFile src dst _ => !(src == Dir.pool) && !(dst == Dir.pool)
  | Eff.removeFile d _ => !(d == Dir.pool)
  | Eff.writeFile d _ => !(d == Dir.pool)
  | Eff.mkdirIn d => !(d == Dir.pool)
  | _ => true

/-- Any move out of the worker's queue directory lands in the worker's
in-progress directory. -/
def claimShape : Eff → Bool
  | Eff.moveFile src dst _ => !(src == Dir.queue) || (dst == Dir.active)
  | _ => true

/-- The frame condition of the main loop: pool never touched, queue moves
go only to the in-progress area. -/
def mainLoopEffOk (e : Eff) : Bool := poolSafe e && claimShape e

lemma moveQueueFiles_frame (fault : WOp → Bool) :
    ∀ (l : List String) (st : WState),
      ((moveQueueFiles fault l st).trace.all mainLoopEffOk) = true ∧
        (moveQueueFiles fault l st).st.pool = st.pool := by
  intro l
  induction l with
  | nil => intro st; exact ⟨rfl, rfl⟩
  | cons bn rest ih =>
    intro st
    by_cases h : fault (WOp.claimMove bn)
    · simpa [moveQueueFiles, h] using ih st
    · obtain ⟨ha, hp⟩ := ih { st with
        queue := st.queue.erase bn
        active := bn :: st.active
        claimsCount := st.claimsCount + 1 }
      refine ⟨?_, by simpa [moveQueueFiles, h] using hp⟩
      simp [moveQueueFiles, h, ha, mainLoopEffOk, poolSafe, claimShape]

lemma claimPhase_frame (fault : WOp → Bool) (spc : ℕ) (st : WState) :
    ((claimPhase fault spc st).trace.all mainLoopEffOk) = true ∧
      (claimPhase fault spc st).st.pool = st.pool := by
  obtain ⟨ha, hp⟩ := moveQueueFiles_frame fault
    (((if fault WOp.listQueue then [] else sortStrings st.queue).filter
        fun f => pyEndsWith f ".csv").take spc) st
  constructor
  · by_cases h1 : fault WOp.heartbeat <;> by_cases h2 : fault WOp.cacheRefresh <;>
      by_cases h3 : fault WOp.logFlushClaims <;>
        simp [claimPhase, h1, h2, h3, ha, mainLoopEffOk, poolSafe, claimShape,
          List.all_append]
  · simpa [claimPhase] using hp

lemma groupTrace_frame (k : String) (rt : RetryTrace) :
    (groupTrace k rt).all mainLoopEffOk = true := by
  rw [List.all_eq_true]
  intro e he
  rcases List.mem_append.mp he with h | h
  · rw [List.eq_of_mem_replicate h]; rfl
  · obtain ⟨q, _, hq⟩ := List.mem_map.mp h
    rw [← hq]; rfl

lemma routeAll_trace_frame (fault : WOp → Bool) (gr : List (String × Bool)) :
    ∀ (l : List String) (st : WState),
      ((routeAll fault gr l st).trace.all mainLoopEffOk) = true := by
  intro l
  induction l with
  | nil => intro st; rfl
  | cons bn rest ih =>
    intro st
    have hdest : mainLoopEffOk
        (Eff.mkdirIn (if lookupD gr (tumourKey bn) then Dir.done else Dir.failed)) = true := by
      by_cases h : lookupD gr (tumourKey bn) <;> simp [h, mainLoopEffOk, poolSafe, claimShape]
    have hmove : mainLoopEffOk
        (Eff.moveFile Dir.active (if lookupD gr (tumourKey bn) then Dir.done else Dir.failed)
          bn) = true := by
      by_cases h : lookupD gr (tumourKey bn) <;> simp [h, mainLoopEffOk, poolSafe, claimShape]
    by_cases h1 : fault (WOp.routeMakedirs bn)
    · simp [routeAll, h1]
    · by_cases h2 : fault (WOp.routeMove bn) <;>
        simp [routeAll, h1, h2, hdest, hmove, ih]

lemma routeAll_pool_frame (fault : WOp → Bool) (gr : List (String × Bool)) :
    ∀ (l : List String) (st : WState), (routeAll fault gr l st).st.pool = st.pool := by
  intro l
  induction l with
  | nil => intro st; rfl
  | cons bn rest ih =>
    intro st
    by_cases h1 : fault (WOp.routeMakedirs bn)
    · simp [routeAll, h1]
    · by_cases h2 : fault (WOp.routeMove bn) <;> simp [routeAll, h1, h2, ih]

lemma emptyBranch_frame (fault : WOp → Bool) (pollInterval maxIdleSeconds now : ℚ)
    (dispatcherDone : Bool) (cp : ClaimPhaseOut)
    (hcp : (cp.trace.all mainLoopEffOk) = true) :
    ((emptyBranch fault pollInterval maxIdleSeconds now dispatcherDone cp).trace.all
        mainLoopEffOk) = true ∧
      (emptyBranch fault pollInterval maxIdleSeconds now dispatcherDone cp).st.pool =
        cp.st.pool := by
  unfold emptyBranch
  by_cases h1 : (emptyPollStep cp.st.lastWorkTs cp.st.claimsCount now maxIdleSeconds
      dispatcherDone).exitNow <;>
    by_cases h2 : fault WOp.writeStuckDiag <;>
      simp [h1, h2, hcp, mainLoopEffOk, poolSafe, claimShape, List.all_append]

lemma batchBranch_frame (fault : WOp → Bool) (invOk : String → ℕ → Bool)
    (maxRetries : ℕ) (backoff now : ℚ) (cp : ClaimPhaseOut)
    (hcp : (cp.trace.all mainLoopEffOk) = true) :
    ((batchBranch fault invOk maxRetries backoff now cp).trace.all mainLoopEffOk) = true ∧
      (batchBranch fault invOk maxRetries backoff now cp).st.pool = cp.st.pool := by
  have ha := routeAll_trace_frame fault
    (groupResultsOf invOk maxRetries backoff (groupByKey cp.claimedNow)) cp.claimedNow
    { cp.st with lastWorkTs := some now }
  have hp := routeAll_pool_frame fault
    (groupResultsOf invOk maxRetries backoff (groupByKey cp.claimedNow)) cp.claimedNow
    { cp.st with lastWorkTs := some now }
  have hinv : (((groupByKey cp.claimedNow).map fun g =>
      groupTrace g.1 (run_group (invOk g.1) maxRetries backoff)).flatten.all
        mainLoopEffOk) = true := by
    rw [List.all_eq_true]
    intro e he
    obtain ⟨tr, htr, hetr⟩ := List.mem_flatten.mp he
    obtain ⟨g, _, hg⟩ := List.mem_map.mp htr
    have := groupTrace_frame g.1 (run_group (invOk g.1) maxRetries backoff)
    rw [List.all_eq_true] at this
    exact this e (hg ▸ hetr)
  constructor
  · by_cases h1 : fault WOp.logFlushBatch <;>
      by_cases h2 : (routeAll fault
          (groupResultsOf invOk maxRetries backoff (groupByKey cp.claimedNow)) cp.claimedNow
          { cp.st with lastWorkTs := some now }).crashed <;>
        simp [batchBranch, h1, h2, hcp, ha, hinv, mainLoopEffOk, poolSafe, claimShape,
          List.all_append]
  · simpa [batchBranch] using hp

/-- C10: one full poll cycle of the worker main loop performs no effect on
the shared pool directory (not even a listing), leaves the pool state
untouched, every move out of the worker's queue lands in the worker's own
in-progress directory, and the startup path checks touch the pool exactly
once, with a read-only listing.  (In particular the pool-scanning
`claim_segment` — whose trace does remove from and move out of the pool —
is never part of the main loop's trace.) -/
theorem worker_main_loop_pool_frame (fault : WOp → Bool) (invOk : String → ℕ → Bool)
    (segmentsPerClaim maxRetries : ℕ) (backoff pollInterval maxIdleSeconds now : ℚ)
    (dispatcherDone : Bool) (st : WState) :
    ((workerPollCycle fault invOk segmentsPerClaim maxRetries backoff pollInterval
        maxIdleSeconds now dispatcherDone st).trace.all mainLoopEffOk) = true ∧
      (workerPollCycle fault invOk segmentsPerClaim maxRetries backoff pollInterval
        maxIdleSeconds now dispatcherDone st).st.pool = st.pool ∧
      (startupChecks.filter fun e => !poolSafe e) = [Eff.listDir Dir.pool] := by
  obtain ⟨ha, hp⟩ := claimPhase_frame fault segmentsPerClaim st
  unfold workerPollCycle
  by_cases he : (claimPhase fault segmentsPerClaim st).claimedNow.isEmpty
  · obtain ⟨h1, h2⟩ := emptyBranch_frame fault pollInterval maxIdleSeconds now dispatcherDone
      (claimPhase fault segmentsPerClaim st) ha
    exact ⟨by simpa [he] using h1, by simpa [he, h2] using hp, by decide⟩
  · obtain ⟨h1, h2⟩ := batchBranch_frame fault invOk maxRetries backoff now
      (claimPhase fault segmentsPerClaim st) ha
    exact ⟨by simpa [he] using h1, by simpa [he, h2] using hp, by decide⟩

lemma routeAll_routed_mem (fault : WOp → Bool) (gr : List (String × Bool)) :
    ∀ (l : List String) (st : WState) (bn : String) (d : Dir),
      (bn, d) ∈ (routeAll fault gr l st).routed →
        bn ∈ l ∧ d = (if lookupD gr (tumourKey bn) then Dir.done else Dir.failed) := by
  intro l
  induction l with
  | nil => intro st bn d h; simp [routeAll] at h
  | cons x rest ih =>
    intro st bn d h
    by_cases h1 : fault (WOp.routeMakedirs x)
    · simp [routeAll, h1] at h
    · by_cases h2 : fault (WOp.routeMove x) <;>
      · simp only [routeAll, h1, h2, Bool.false_eq_true, if_false, if_true,
          List.mem_cons, Prod.mk.injEq] at h
        rcases h with ⟨rfl, rfl⟩ | h
        · exact ⟨List.mem_cons_self _ _, rfl⟩
        · obtain ⟨hm, hd⟩ := ih _ bn d h
          exact ⟨List.mem_cons_of_mem _ hm, hd⟩

lemma addToGroups_keys_mono (b k : String) :
    ∀ g : List (String × List String),
      k ∈ g.map Prod.fst → k ∈ (addToGroups b g).map Prod.fst := by
  intro g
  induction g with
  | nil => intro h; simp at h
  | cons p rest ih =>
    obtain ⟨k0, xs⟩ := p
    intro h
    rw [List.map_cons] at h
    by_cases hk : k0 = tumourKey b
    · simpa [addToGroups, hk] using h
    · rcases List.mem_cons.mp h with h0 | h0
      · simp [addToGroups, hk, h0]
      · simp [addToGroups, hk, ih h0]

lemma addToGroups_keys_self (b : String) :
    ∀ g : List (String × List String), tumourKey b ∈ (addToGroups b g).map Prod.fst := by
  intro g
  induction g with
  | nil => simp [addToGroups]
  | cons p rest ih =>
    obtain ⟨k0, xs⟩ := p
    by_cases hk : k0 = tumourKey b
    · simp [addToGroups, hk]
    · simp [addToGroups, hk, ih]

lemma groupByKey_keys_aux (bn : String) :
    ∀ (l : List String) (acc : List (String × List String)),
      (bn ∈ l ∨ tumourKey bn ∈ acc.map Prod.fst) →
      tumourKey bn ∈ (l.foldl (fun g b => addToGroups b g) acc).map Prod.fst := by
  intro l
  induction l with
  | nil =>
    intro acc h
    rcases h with h | h
    · simp at h
    · simpa using h
  | cons b rest ih =>
    intro acc h
    rw [List.foldl_cons]
    rcases h with h | h
    · rcases List.mem_cons.mp h with hb | hbl
      · exact ih _ (Or.inr (hb ▸ addToGroups_keys_self bn acc))
      · exact ih _ (Or.inl hbl)
    · exact ih _ (Or.inr (addToGroups_keys_mono b _ _ h))

lemma groupByKey_keys (l : List String) (bn : String) (h : bn ∈ l) :
    tumourKey bn ∈ (groupByKey l).map Prod.fst :=
  groupByKey_keys_aux bn l [] (Or.inl h)

lemma lookupD_groupResultsOf (invOk : String → ℕ → Bool) (maxRetries : ℕ) (backoff : ℚ) :
    ∀ (groups : List (String × List String)) (k : String),
      k ∈ groups.map Prod.fst →
      lookupD (groupResultsOf invOk maxRetries backoff groups) k =
        (run_group (invOk k) maxRetries backoff).success := by
  intro groups
  induction groups with
  | nil => intro k h; simp at h
  | cons g rest ih =>
    obtain ⟨k0, xs⟩ := g
    intro k h
    by_cases hk : k0 = k
    · subst hk
      simp [groupResultsOf, lookupD]
    · rw [List.map_cons] at h
      have hmem : k ∈ rest.map Prod.fst := by
        rcases List.mem_cons.mp h with h0 | h0
        · exact absurd h0.symm hk
        · exact h0
      simpa [groupResultsOf, lookupD, hk] using ih k hmem

lemma emptyBranch_routed (fault : WOp → Bool) (pollInterval maxIdleSeconds now : ℚ)
    (dispatcherDone : Bool) (cp : ClaimPhaseOut) :
    (emptyBranch fault pollInterval maxIdleSeconds now dispatcherDone cp).routed = [] := by
  unfold emptyBranch
  by_cases h : (emptyPollStep cp.st.lastWorkTs cp.st.claimsCount now maxIdleSeconds
      dispatcherDone).exitNow <;> simp [h]

lemma batchBranch_routed (fault : WOp → Bool) (invOk : String → ℕ → Bool)
    (maxRetries : ℕ) (backoff now : ℚ) (cp : ClaimPhaseOut) :
    (batchBranch fault invOk maxRetries backoff now cp).routed =
      (routeAll fault (groupResultsOf invOk maxRetries backoff (groupByKey cp.claimedNow))
        cp.claimedNow { cp.st with lastWorkTs := some now }).routed := rfl

lemma workerPollCycle_routed_dest (fault : WOp → Bool) (invOk : String → ℕ → Bool)
    (segmentsPerClaim maxRetries : ℕ) (backoff pollInterval maxIdleSeconds now : ℚ)
    (dispatcherDone : Bool) (st : WState) (bn : String) (d : Dir)
    (h : (bn, d) ∈ (workerPollCycle fault invOk segmentsPerClaim maxRetries backoff
      pollInterval maxIdleSeconds now dispatcherDone st).routed) :
    d = (if (run_group (invOk (tumourKey bn)) maxRetries backoff).success
      then Dir.done else Dir.failed) := by
  unfold workerPollCycle at h
  by_cases he : (claimPhase fault segmentsPerClaim st).claimedNow.isEmpty
  · rw [if_pos he, emptyBranch_routed] at h
    simp at h
  · rw [if_neg he, batchBranch_routed] at h
    obtain ⟨hmem, hd⟩ := routeAll_routed_mem _ _ _ _ _ _ h
    rw [hd, lookupD_groupResultsOf invOk maxRetries backoff _ _
      (groupByKey_keys _ _ hmem)]

/-- C6: in one poll cycle, any two claimed units whose basenames derive the
same tumour key are routed to the same terminal directory, and that
directory is the done directory iff the (retried) external invocation for
their group succeeded, else the failed directory. -/
theorem batch_same_group_same_outcome (fault : WOp → Bool) (invOk : String → ℕ → Bool)
    (segmentsPerClaim maxRetries : ℕ) (backoff pollInterval maxIdleSeconds now : ℚ)
    (dispatcherDone : Bool) (st : WState) (bn1 bn2 : String) (d1 d2 : Dir)
    (h1 : (bn1, d1) ∈ (workerPollCycle fault invOk segmentsPerClaim maxRetries backoff
      pollInterval maxIdleSeconds now dispatcherDone st).routed)
    (h2 : (bn2, d2) ∈ (workerPollCycle fault invOk segmentsPerClaim maxRetries backoff
      pollInterval maxIdleSeconds now dispatcherDone st).routed)
    (hk : tumourKey bn1 = tumourKey bn2) :
    d1 = d2 ∧
      (d1 = Dir.done ↔
        (run_group (invOk (tumourKey bn1)) maxRetries backoff).success = true) := by
  have e1 := workerPollCycle_routed_dest fault invOk segmentsPerClaim maxRetries backoff
    pollInterval maxIdleSeconds now dispatcherDone st bn1 d1 h1
  have e2 := workerPollCycle_routed_dest fault invOk segmentsPerClaim maxRetries backoff
    pollInterval maxIdleSeconds now dispatcherDone st bn2 d2 h2
  rw [hk] at e1
  refine ⟨e1.trans e2.symm, ?_⟩
  rw [e1, ← hk]
  by_cases hs : (run_group (invOk (tumourKey bn1)) maxRetries backoff).success = true <;>
    simp [hs]

/-- Witness for C6: two segments of the same tumour claimed in one batch
both land in the done directory when the invocation succeeds. -/
theorem batch_same_group_same_outcome_witness :
    Dir.done = Dir.done ∧
      (Dir.done = Dir.done ↔
        (run_group ((fun _ _ => true) (tumourKey "ALPACA_input_table_T1_1.csv")) 0 1).success
          = true) :=
  batch_same_group_same_outcome (fun _ => false) (fun _ _ => true) 2 0 1 1 600 0 false
    ⟨["ALPACA_input_table_T1_1.csv", "ALPACA_input_table_T1_2.csv"], [], [], [], [], none, 0⟩
    "ALPACA_input_table_T1_1.csv" "ALPACA_input_table_T1_2.csv" Dir.done Dir.done
    (by decide) (by decide) (by decide)

lemma routeAll_no_crash (fault : WOp → Bool) (gr : List (String × Bool))
    (hf : ∀ bn, fault (WOp.routeMakedirs bn) = false) :
    ∀ (l : List String) (st : WState), (routeAll fault gr l st).crashed = false := by
  intro l
  induction l with
  | nil => intro st; rfl
  | cons bn rest ih =>
    intro st
    by_cases h2 : fault (WOp.routeMove bn) <;> simp [routeAll, hf bn, h2, ih]

lemma emptyBranch_exit_no_crash (fault : WOp → Bool) (pollInterval maxIdleSeconds now : ℚ)
    (dispatcherDone : Bool) (cp : ClaimPhaseOut) :
    (emptyBranch fault pollInterval maxIdleSeconds now dispatcherDone cp).exit ≠
      CycleExit.crashed := by
  unfold emptyBranch
  by_cases h1 : (emptyPollStep cp.st.lastWorkTs cp.st.claimsCount now maxIdleSeconds
      dispatcherDone).exitNow <;>
    by_cases h2 : (emptyPollStep cp.st.lastWorkTs cp.st.claimsCount now maxIdleSeconds
      dispatcherDone).timeoutReached <;>
      simp [h1, h2]

/-- C7 counterexample: a single fault at the unguarded
`os.makedirs(os.path.dirname(dest), exist_ok=True)` of the routing loop
(line 552 of `segment_worker.py`, outside every `try`) terminates the
worker: the poll cycle ends in the `crashed` state even though neither
exit condition holds, refuting the claim that every fault raised during a
poll cycle is caught. -/
theorem worker_crashes_on_routing_fault :
    (workerPollCycle (fun op => op == WOp.routeMakedirs "ALPACA_input_table_T1_1.csv")
      (fun _ _ => true) 1 0 1 1 600 0 false
      ⟨["ALPACA_input_table_T1_1.csv"], [], [], [], [], none, 0⟩).exit =
      CycleExit.crashed := by decide

/-- C7 amended: faults at the guarded operations of a poll cycle
(heartbeat, done-cache refresh, queue listing, queue moves, log flushes,
external invocation — the latter via the outcome oracle — and the
`shutil.move` of routing) never terminate the worker; only a fault at the
unguarded `os.makedirs` of the routing loop can.  (Note the code does not
back off a poll interval after a caught fault: it proceeds immediately;
the poll-interval sleep happens only on an empty claim.) -/
theorem worker_no_crash_without_makedirs_fault (fault : WOp → Bool)
    (invOk : String → ℕ → Bool) (segmentsPerClaim maxRetries : ℕ)
    (backoff pollInterval maxIdleSeconds now : ℚ) (dispatcherDone : Bool) (st : WState)
    (hf : ∀ bn, fault (WOp.routeMakedirs bn) = false) :
    (workerPollCycle fault invOk segmentsPerClaim maxRetries backoff pollInterval
      maxIdleSeconds now dispatcherDone st).exit ≠ CycleExit.crashed := by
  unfold workerPollCycle
  by_cases he : (claimPhase fault segmentsPerClaim st).claimedNow.isEmpty
  · rw [if_pos he]
    exact emptyBranch_exit_no_crash _ _ _ _ _ _
  · rw [if_neg he]
    unfold batchBranch
    simp [routeAll_no_crash fault _ hf]

/-- Witness for the amended C7: with no filesystem fault at all, a cycle
that claims and routes one unit does not crash. -/
theorem worker_no_crash_without_makedirs_fault_witness :
    (workerPollCycle (fun _ => false) (fun _ _ => true) 1 0 1 1 600 0 false
      ⟨["ALPACA_input_table_T1_1.csv"], [], [], [], [], none, 0⟩).exit ≠
      CycleExit.crashed :=
  worker_no_crash_without_makedirs_fault (fun _ => false) (fun _ _ => true) 1 0 1 1 600 0
    false ⟨["ALPACA_input_table_T1_1.csv"], [], [], [], [], none, 0⟩ (fun _ => rfl)

/-! ## The dispatcher loop (`dispatcher.py`, lines 46-100) -/

/-- `list_csv` from `dispatcher.py` (lines 13-17). -/
def list_csv (l : List String) : List String :=
  l.filter fun f => pyEndsWith f ".csv"

/-- State of the dispatcher loop: the pool listing, the per-worker queue
listings, and the idle counter. -/
structure DState where
  pool : List String
  queues : List (List String)
  idle : ℕ
  deriving DecidableEq, Repr

/-- Result of one pass of the per-worker distribution loop. -/
structure DistOut where
  queues : List (List String)
  pool : List String
  trace : List Eff
  deriving DecidableEq, Repr

/-- Keep only the entries not scheduled for moving. -/
def removeAllStr (l rem : List String) : List String :=
  l.filter fun f => !rem.contains f

/-- The `for w in workers:` loop of `dispatcher.main` (lines 83-94) under
nominal filesystem semantics (every rename succeeds): skip a worker whose
queue already holds `.csv` files; otherwise move up to
`segments_per_claim` of the pool's `.csv` files into its queue with
`move_files` (which calls `os.makedirs` then `os.rename` per file),
refreshing `pool_files` after each batch; `break` when the refreshed pool
offers nothing to move. -/
def distribute (spc : ℕ) : List (List String) → List String → DistOut
  | [], pool => ⟨[], pool, []⟩
  | q :: rest, pool =>
    if (list_csv q).isEmpty then
      let toMove := (list_csv pool).take spc
      if toMove.isEmpty then ⟨q :: rest, pool, []⟩
      else
        let pool1 := removeAllStr pool toMove
        let r := distribute spc rest pool1
        ⟨(q ++ toMove) :: r.queues, r.pool,
          (toMove.map fun f => Eff.moveFile Dir.pool Dir.queue f) ++ r.trace⟩
    else
      let r := distribute spc rest pool
      ⟨q :: r.queues, r.pool, r.trace⟩

/-- Result of running the dispatcher loop for a bounded number of polls. -/
structure DispatchOut where
  st : DState
  trace : List Eff
  stopped : Bool
  deriving DecidableEq, Repr

/-- The `while True:` loop of `dispatcher.main` (lines 70-97): if the pool
holds no `.csv` file, increment the idle counter and — once it exceeds
`max_idle` — `break` (the loop simply ends; no file of any kind is
written); otherwise reset the idle counter and distribute.  `fuel` bounds
the number of polls simulated; `stopped = false` means the loop was still
running when the fuel ran out. -/
def dispatcherRun (spc maxIdle : ℕ) (pollInterval : ℚ) : ℕ → DState → DispatchOut
  | 0, st => ⟨st, [], false⟩
  | fuel + 1, st =>
    if (list_csv st.pool).isEmpty then
      if maxIdle < st.idle + 1 then ⟨⟨st.pool, st.queues, st.idle + 1⟩, [], true⟩
      else
        let r := dispatcherRun spc maxIdle pollInterval fuel ⟨st.pool, st.queues, st.idle + 1⟩
        ⟨r.st, Eff.sleepFor pollInterval :: r.trace, r.stopped⟩
    else
      let d := distribute spc st.queues st.pool
      let r := dispatcherRun spc maxIdle pollInterval fuel ⟨d.pool, d.queues, 0⟩
      ⟨r.st, d.trace ++ r.trace, r.stopped⟩

/-- Is the effect the creation of a file (which a sentinel write would
be)? -/
def isFileWrite : Eff → Bool
  | Eff.writeFile _ _ => true
  | _ => false

/-- Is the effect a move of a unit out of the pool? -/
def isPoolMove : Eff → Bool
  | Eff.moveFile src _ _ => src == Dir.pool
  | _ => false

lemma distribute_no_write (spc : ℕ) :
    ∀ (qs : List (List String)) (pool : List String),
      ((distribute spc qs pool).trace.all fun e => !isFileWrite e) = true := by
  intro qs
  induction qs with
  | nil => intro pool; rfl
  | cons q rest ih =>
    intro pool
    by_cases h1 : (list_csv q).isEmpty
    · by_cases h2 : ((list_csv pool).take spc).isEmpty
      · simp [distribute, h1, h2]
      · have hstep : (distribute spc (q :: rest) pool).trace =
            (((list_csv pool).take spc).map fun f => Eff.moveFile Dir.pool Dir.queue f) ++
              (distribute spc rest (removeAllStr pool ((list_csv pool).take spc))).trace := by
          simp [distribute, h1, h2]
        rw [hstep, List.all_append, Bool.and_eq_true]
        refine ⟨?_, ih _⟩
        rw [List.all_eq_true]
        intro e he
        obtain ⟨f, _, hf⟩ := List.mem_map.mp he
        rw [← hf]; rfl
    · simp [distribute, h1, ih]

lemma dispatcherRun_no_write (spc maxIdle : ℕ) (pollInterval : ℚ) :
    ∀ (fuel : ℕ) (st : DState),
      ((dispatcherRun spc maxIdle pollInterval fuel st).trace.all
        fun e => !isFileWrite e) = true := by
  intro fuel
  induction fuel with
  | zero => intro st; rfl
  | succ n ih =>
    intro st
    have hhd : isFileWrite (Eff.sleepFor pollInterval) = false := rfl
    by_cases h1 : (list_csv st.pool).isEmpty
    · by_cases h2 : maxIdle < st.idle + 1 <;>
        simp [dispatcherRun, h1, h2, hhd, ih]
    · simp [dispatcherRun, h1, List.all_append, distribute_no_write, ih]

lemma dispatcherRun_empty_pool_stops (spc maxIdle : ℕ) (pollInterval : ℚ) :
    ∀ (fuel : ℕ) (st : DState), st.pool = [] → maxIdle < st.idle + fuel → 1 ≤ fuel →
      (dispatcherRun spc maxIdle pollInterval fuel st).stopped = true ∧
        ((dispatcherRun spc maxIdle pollInterval fuel st).trace.all
          fun e => !isPoolMove e) = true := by
  intro fuel
  induction fuel with
  | zero => intro st _ _ hf; omega
  | succ n ih =>
    intro st hpool hidle _
    have hempty : (list_csv st.pool).isEmpty = true := by rw [hpool]; rfl
    by_cases h2 : maxIdle < st.idle + 1
    · simp [dispatcherRun, hempty, h2]
    · have hn : 1 ≤ n := by omega
      obtain ⟨hs, ht⟩ := ih ⟨st.pool, st.queues, st.idle + 1⟩ hpool
        (by show maxIdle < st.idle + 1 + n; omega) hn
      have hhd : isPoolMove (Eff.sleepFor pollInterval) = false := rfl
      constructor
      · simp [dispatcherRun, hempty, h2, hs]
      · simp [dispatcherRun, hempty, h2, hhd, ht]

/-- C4 (refuting the sentinel write): the dispatcher loop never writes any
file at all — in particular it never writes the "dispatching complete"
sentinel (`dispatcher.done`) that `segment_worker.main` waits for (and
`--outputs-dir` is parsed but unused) — and once the pool stays empty
past the idle threshold it stops, issuing no move out of the pool. -/
theorem dispatcher_stops_without_sentinel (spc maxIdle : ℕ) (pollInterval : ℚ)
    (fuel : ℕ) (st : DState) (hpool : st.pool = [])
    (hidle : maxIdle < st.idle + fuel) (hfuel : 1 ≤ fuel) :
    ((dispatcherRun spc maxIdle pollInterval fuel st).trace.all
        fun e => !isFileWrite e) = true ∧
      (dispatcherRun spc maxIdle pollInterval fuel st).stopped = true ∧
      ((dispatcherRun spc maxIdle pollInterval fuel st).trace.all
        fun e => !isPoolMove e) = true := by
  obtain ⟨hs, ht⟩ := dispatcherRun_empty_pool_stops spc maxIdle pollInterval fuel st
    hpool hidle hfuel
  exact ⟨dispatcherRun_no_write spc maxIdle pollInterval fuel st, hs, ht⟩

/-- Witness for C4: pool empty from the start, idle threshold 2, four
polls: the loop stops and no file was ever written. -/
theorem dispatcher_stops_without_sentinel_witness :
    ((dispatcherRun 1 2 1 4 ⟨[], [[]], 0⟩).trace.all fun e => !isFileWrite e) = true ∧
      (dispatcherRun 1 2 1 4 ⟨[], [[]], 0⟩).stopped = true ∧
      ((dispatcherRun 1 2 1 4 ⟨[], [[]], 0⟩).trace.all fun e => !isPoolMove e) = true :=
  dispatcher_stops_without_sentinel 1 2 1 4 ⟨[], [[]], 0⟩ rfl (by omega) (by omega)

/-! ## The two move-with-fallback primitives (C8) -/

/-- Result of one `os.rename` attempt, as the scripts distinguish them:
success, `FileNotFoundError` (source missing), `OSError` with
`errno.EXDEV` (cross-device), or any other `OSError` (transient). -/
inductive RenameRes
  | ok
  | missing
  | crossDevice
  | otherErr
  deriving DecidableEq, Repr

/-- Oracle for a move: the result of the n-th rename attempt and whether
the n-th copy-fallback (copy to temp + replace + delete original) would
succeed. -/
structure MvOracle where
  rename : ℕ → RenameRes
  copyOk : ℕ → Bool

/-- Observable outcome of a per-file move. -/
inductive MvOutcome
  | moved
  | lostRace
  | skipped
  deriving DecidableEq, Repr

/-- Observable trace of a per-file move: outcome, number of rename
attempts, number of copy-fallback attempts, and number of `os.fsync`
calls on the copied temp file. -/
structure MvTrace where
  outcome : MvOutcome
  renameAttempts : ℕ
  copyAttempts : ℕ
  fsyncs : ℕ
  deriving DecidableEq, Repr

/-- The worker claim primitive's per-candidate move
(`claim_segment`, `segment_worker.py` lines 66-147): up to 3 attempts;
`FileNotFoundError` is a benign lost race (stop at once);
cross-device (`errno.EXDEV`) triggers the copy-to-temp / fsync /
`os.replace` / best-effort-delete fallback, retrying on fallback failure;
any other `OSError` is logged and retried. -/
def workerMoveAux (o : MvOracle) : ℕ → ℕ → MvTrace
  | _, 0 => ⟨MvOutcome.skipped, 0, 0, 0⟩
  | n, fuel + 1 =>
    match o.rename n with
    | RenameRes.ok => ⟨MvOutcome.moved, 1, 0, 0⟩
    | RenameRes.missing => ⟨MvOutcome.lostRace, 1, 0, 0⟩
    | RenameRes.crossDevice =>
      if o.copyOk n then ⟨MvOutcome.moved, 1, 1, 1⟩
      else
        let r := workerMoveAux o (n + 1) fuel
        ⟨r.outcome, r.renameAttempts + 1, r.copyAttempts + 1, r.fsyncs⟩
    | RenameRes.otherErr =>
      let r := workerMoveAux o (n + 1) fuel
      ⟨r.outcome, r.renameAttempts + 1, r.copyAttempts, r.fsyncs⟩

/-- The worker move: `for attempt in range(3)`. -/
def workerMove (o : MvOracle) : MvTrace := workerMoveAux o 0 3

/-- The dispatcher's per-file move (`move_files`, `dispatcher.py` lines
22-42): one `os.rename`; on *any* exception — including a missing source —
one copy fallback (`shutil.copy2` to `d + ".tmp"`, no fsync, `os.replace`,
best-effort delete); on fallback failure the file is skipped with a
printed traceback; no retries.  When the source is missing the
`shutil.copy2` necessarily raises again, so the fallback fails. -/
def dispatcherMove (o : MvOracle) : MvTrace :=
  match o.rename 0 with
  | RenameRes.ok => ⟨MvOutcome.moved, 1, 0, 0⟩
  | RenameRes.missing => ⟨MvOutcome.skipped, 1, 1, 0⟩
  | _ =>
    if o.copyOk 0 then ⟨MvOutcome.moved, 1, 1, 0⟩ else ⟨MvOutcome.skipped, 1, 1, 0⟩

lemma workerMove_first_ok (o : MvOracle) (h : o.rename 0 = RenameRes.ok) :
    workerMove o = ⟨MvOutcome.moved, 1, 0, 0⟩ := by
  have he : workerMove o = workerMoveAux o 0 (2 + 1) := rfl
  rw [he]
  simp [workerMoveAux, h]

lemma workerMove_first_missing (o : MvOracle) (h : o.rename 0 = RenameRes.missing) :
    workerMove o = ⟨MvOutcome.lostRace, 1, 0, 0⟩ := by
  have he : workerMove o = workerMoveAux o 0 (2 + 1) := rfl
  rw [he]
  simp [workerMoveAux, h]

/-- C8 counterexample: a transient rename failure on the first attempt
that disappears on the second (with a copy fallback that always fails):
the worker primitive retries and moves the file, the dispatcher primitive
gives up and skips it — the two moves do not behave identically. -/
theorem dispatcher_move_not_identical :
    dispatcherMove ⟨fun n => if n = 0 then RenameRes.otherErr else RenameRes.ok,
        fun _ => false⟩ ≠
      workerMove ⟨fun n => if n = 0 then RenameRes.otherErr else RenameRes.ok,
        fun _ => false⟩ := by decide

/-- C8 amended: the dispatcher's per-file move is a single-attempt variant
of the worker primitive: exactly one rename attempt, at most one copy
fallback, never an fsync; it agrees with the worker primitive whenever the
first rename succeeds; and a missing source is not recognised as a benign
lost race but funnelled into the copy fallback, which necessarily fails,
so the file is skipped (benign in effect, after a spurious copy attempt
and a printed traceback). -/
theorem dispatcher_move_single_attempt (o : MvOracle) :
    (dispatcherMove o).renameAttempts = 1 ∧
      (dispatcherMove o).copyAttempts ≤ 1 ∧
      (dispatcherMove o).fsyncs = 0 ∧
      (o.rename 0 = RenameRes.ok → dispatcherMove o = workerMove o) ∧
      (o.rename 0 = RenameRes.missing →
        (dispatcherMove o).outcome = MvOutcome.skipped ∧
          (workerMove o).outcome = MvOutcome.lostRace) := by
  refine ⟨?_, ?_, ?_, ?_, ?_⟩
  · rcases h : o.rename 0 with _ | _ | _ | _ <;>
      by_cases hc : o.copyOk 0 <;> simp [dispatcherMove, h, hc]
  · rcases h : o.rename 0 with _ | _ | _ | _ <;>
      by_cases hc : o.copyOk 0 <;> simp [dispatcherMove, h, hc]
  · rcases h : o.rename 0 with _ | _ | _ | _ <;>
      by_cases hc : o.copyOk 0 <;> simp [dispatcherMove, h, hc]
  · intro h
    rw [workerMove_first_ok o h]
    simp [dispatcherMove, h]
  · intro h
    exact ⟨by simp [dispatcherMove, h], by rw [workerMove_first_missing o h]⟩

/-- Witness for the amended C8 at a concrete oracle whose source is
missing. -/
theorem dispatcher_move_single_attempt_witness :
    (dispatcherMove ⟨fun _ => RenameRes.missing, fun _ => true⟩).renameAttempts = 1 ∧
      (dispatcherMove ⟨fun _ => RenameRes.missing, fun _ => true⟩).copyAttempts ≤ 1 ∧
      (dispatcherMove ⟨fun _ => RenameRes.missing, fun _ => true⟩).fsyncs = 0 ∧
      ((dispatcherMove ⟨fun _ => RenameRes.missing, fun _ => true⟩).outcome =
          MvOutcome.skipped ∧
        (workerMove ⟨fun _ => RenameRes.missing, fun _ => true⟩).outcome =
          MvOutcome.lostRace) := by
  obtain ⟨h1, h2, h3, _, h5⟩ :=
    dispatcher_move_single_attempt ⟨fun _ => RenameRes.missing, fun _ => true⟩
  exact ⟨h1, h2, h3, h5 rfl⟩

/-! ## At-most-once claiming under concurrency (C9) -/

/-- Who currently holds a shared pool entry: still present in the pool,
or already renamed away by claimant `k`. -/
inductive ClaimOwner
  | inPool
  | ownedBy (k : ℕ)
  deriving DecidableEq, Repr

/-- One `os.rename(src, dst)` issued by claimant `k` against the shared
entry — the primitive both `claim_segment` (`segment_worker.py` line 78)
and `move_files` (`dispatcher.py` line 27) rely on.  The directory
operation is atomic: it succeeds iff the entry is still present, removing
it; once the entry is gone every later rename raises `FileNotFoundError`
(the benign lost race). -/
def renameStep (s : ClaimOwner) (k : ℕ) : ClaimOwner × Bool :=
  match s with
  | ClaimOwner.inPool => (ClaimOwner.ownedBy k, true)
  | o => (o, false)

/-- Run an arbitrary interleaving of rename attempts by the claimants in
`attempts` (worker and/or dispatcher processes, in any order, with
repetitions); returns the final owner and the list of claimants whose
rename succeeded. -/
def raceRun : List ℕ → ClaimOwner → ClaimOwner × List ℕ
  | [], s => (s, [])
  | k :: rest, s =>
    let p := renameStep s k
    let r := raceRun rest p.1
    (r.1, if p.2 then k :: r.2 else r.2)

lemma raceRun_owned (j : ℕ) :
    ∀ attempts : List ℕ,
      raceRun attempts (ClaimOwner.ownedBy j) = (ClaimOwner.ownedBy j, []) := by
  intro attempts
  induction attempts with
  | nil => rfl
  | cons k rest ih => simp [raceRun, renameStep, ih]

/-- C9: under any interleaving of any number of claimants racing on one
pool entry with the atomic-rename claim primitive, at most one claimant's
rename succeeds, and when one does, it is the final owner of the entry —
no interleaving lets two claimants both claim the same unit. -/
theorem race_at_most_one_winner (attempts : List ℕ) :
    (raceRun attempts ClaimOwner.inPool).2.length ≤ 1 ∧
      ((raceRun attempts ClaimOwner.inPool).2 = [] ∨
        ∃ k, raceRun attempts ClaimOwner.inPool = (ClaimOwner.ownedBy k, [k])) := by
  cases attempts with
  | nil => exact ⟨Nat.zero_le 1, Or.inl rfl⟩
  | cons k rest =>
    have hr : raceRun (k :: rest) ClaimOwner.inPool = (ClaimOwner.ownedBy k, [k]) := by
      simp [raceRun, renameStep, raceRun_owned k rest]
    rw [hr]
    exact ⟨by simp, Or.inr ⟨k, rfl⟩⟩

/-! ## The completion validator (`validate_results.py`) -/

/-- A Python value as manipulated by `validate_results.py`: a set of
strings (carried as its element list) or a generator expression yielding
strings. -/
inductive PyVal
  | pySet (xs : List String)
  | pyGen (xs : List String)
  deriving DecidableEq, Repr

/-- Python's binary `-` as applied at line 10 of `validate_results.py`:
set difference is defined when both operands are sets; for any other
operand combination — in particular two generators — it raises
`TypeError: unsupported operand type(s) for -`. -/
def pySub : PyVal → PyVal → Except String PyVal
  | PyVal.pySet a, PyVal.pySet b =>
    Except.ok (PyVal.pySet (a.filter fun x => !b.contains x))
  | _, _ => Except.error "TypeError: unsupported operand types for -"

/-- Line 8's per-element normalisation of an expected identifier. -/
def normExpected (s : String) : String :=
  pyReplace (pyReplace s "ALPACA_input_table_" "") ".csv" ""

/-- Line 9's per-element normalisation of an observed identifier. -/
def normActual (s : String) : String :=
  pyReplace (pyReplace (pyReplace s "optimal_" "") "all_" "") ".csv" ""

/-- The module body of `validate_results.py` (lines 6-17) on the lines of
the two input files.  Lines 8 and 9 rebind `expected` and `actual` to
*generator expressions* (`(... for s in ...)`, not set comprehensions), so
line 10 applies `-` to two generators.  Were that subtraction to produce a
value, the rest of the body would sort it, persist it when non-empty, and
write the status token `failed` (without calling `sys.exit`) or `done`. -/
def validate_results (expectedLines actualLines : List String) :
    Except String (List String × String) := do
  let expected := PyVal.pyGen (expectedLines.dedup.map normExpected)
  let actual := PyVal.pyGen (actualLines.dedup.map normActual)
  let missing ← pySub expected actual
  match missing with
  | PyVal.pySet m | PyVal.pyGen m =>
    let ms := sortStrings m
    if ms.isEmpty then pure (ms, "done") else pure (ms, "failed")

/-- C1 (refuted by a crash): on every pair of input lists — including the
spec's own example, manifest consisting of tables for A, B, C and a Done
set containing A and B — the validator raises `TypeError` at
`expected - actual` before computing any missing set or writing any status
token, because lines 8-9 build generators, not sets.  The script therefore
always aborts with a thrown fault and never produces the
`done` / `failed` token or `missing_segments.txt`. -/
theorem validate_results_always_type_error (expectedLines actualLines : List String) :
    validate_results expectedLines actualLines =
      Except.error "TypeError: unsupported operand types for -" := rfl

end Alpaca
